import Mathlib

/-!
Verification of the migration-queue processor (`app/services/migrator/service.py`)
and the chaos policy gate (`app/services/policy/chaos.py`).

The Python code is shallowly embedded: every remote interaction (HEAD, GET,
PUT, DELETE, bucket creation, sleeps, metric/alert emission) is recorded in an
action trace, and every fallible remote call is an `Except`-valued input of the
environment, so a single run of `copyOnce` is a pure function of its
environment.  Timestamps are integer seconds; `str()` of Python values is
modelled up to formatting (no claim depends on its exact text).
-/

deriving instance DecidableEq for Except

namespace Migrator

/-- A Python exception: botocore `ClientError` carrying
`e.response.get("Error", \x7b\x7d).get("Code")`, or any other exception. -/
inductive PyErr where
  | clientError (code : Option String)
  | otherExn (msg : String)
deriving DecidableEq

/-- A successful `head_object` response: the fields the code reads
(`ETag`, `ContentLength`, `LastModified`), each possibly missing. -/
structure HeadResp where
  etag : Option String := none
  contentLength : Option Int := none
  lastModified : Option Int := none
deriving DecidableEq

/-- The dict returned by `_head_meta` on success: `etag` and `size`. -/
structure SmMeta where
  etag : String
  size : Int
deriving DecidableEq

/-- Observable actions of one tick: remote I/O, sleeps, metrics, alerts. -/
inductive Act where
  | chaosSleep (ms : Int)
  | ensureBucket (name : String)
  | headObj (endpoint key : String)
  | getObj (endpoint key : String)
  | putObj (endpoint key body : String)
  | deleteObj (endpoint key : String)
  | sleepS (secs : Nat)
  | gaugeSet (status : String) (value : Nat)
  | alert (name severity message : String) (queued : Nat)
  | counterInc (result : String)
  | setVersionToken (key token : String)
deriving DecidableEq

/-- The discriminated outcome dicts of `_ensure_and_copy_once` / `_cleanup_once`. -/
inductive Outcome where
  | copied (size : Int) (versionToken : String)
  | noop
  | missingSource
  | skipped (reason : String)
  | blocked (reason : String)
  | failed (error : String)
  | deleted
deriving DecidableEq

/-- `r["status"]` of an outcome dict. -/
def outcomeStatus : Outcome → String
  | .copied .. => "copied"
  | .noop => "noop"
  | .missingSource => "missing_source"
  | .skipped _ => "skipped"
  | .blocked _ => "blocked"
  | .failed _ => "failed"
  | .deleted => "deleted"

/-- `r.get("reason", "blocked")`, used only on the blocked branch. -/
def blockedReason : Outcome → String
  | .blocked r => r
  | .skipped r => r
  | _ => "blocked"

/-- `str(e)` for an exception, up to formatting. -/
def pyStrErr : PyErr → String
  | .clientError (some c) => "ClientError " ++ c
  | .clientError none => "ClientError"
  | .otherExn m => m

/-- `str(r)` for an outcome dict, up to formatting. -/
def pyStrOutcome (o : Outcome) : String :=
  match o with
  | .skipped r => "\x7bstatus: skipped, reason: " ++ r ++ "\x7d"
  | .failed e => "\x7bstatus: failed, error: " ++ e ++ "\x7d"
  | _ => "\x7bstatus: " ++ outcomeStatus o ++ "\x7d"

/-- Drop every leading and trailing quote character from a character list. -/
def stripChars (l : List Char) : List Char :=
  ((l.dropWhile (fun c => c == '"')).reverse.dropWhile (fun c => c == '"')).reverse

/-- Python `s.strip(chr(34))`: drop every leading and trailing quote character. -/
def stripQuotes (s : String) : String := String.mk (stripChars s.toList)

/-- `code in ("404", "NoSuchKey", "NotFound")` (where `code` may be `None`). -/
def notFoundCode : Option String → Bool
  | some s => ["404", "NoSuchKey", "NotFound"].contains s
  | none => false

/-- `code in ("429", "503", "Throttling", "TooManyRequests", "SlowDown")`. -/
def throttleCode : Option String → Bool
  | some s => ["429", "503", "Throttling", "TooManyRequests", "SlowDown"].contains s
  | none => false

/-- The retry loop catches only `ClientError` and re-raises unless the code is
in the throttling set. -/
def isClientThrottle : PyErr → Bool
  | .clientError c => throttleCode c
  | .otherExn _ => false

/-- `max_retries = 3` in `_ensure_and_copy_once`. -/
def maxRetries : Nat := 3

/-- `MAX_ATTEMPTS = 5` in the processor. -/
def MAX_ATTEMPTS : Nat := 5

/-- `_head_meta(client, bucket, key)` applied to the head response (or the
exception the call raised).  Not-found codes become `none`; other errors
propagate; on success the ETag is stripped of quotes and `ContentLength`
defaults to 0. -/
def headMeta (resp : Except PyErr HeadResp) : Except PyErr (Option SmMeta) :=
  match resp with
  | .ok r => .ok (some ⟨stripQuotes (r.etag.getD ""), r.contentLength.getD 0⟩)
  | .error (.clientError c) =>
      if notFoundCode c then .ok none else .error (.clientError c)
  | .error e => .error e

/-- The environment of one `_ensure_and_copy_once` call: policy flags and the
responses the remote endpoints give to each call the code makes.  `getTry n` /
`putTry n` are the results of the GET and PUT of retry-loop iteration `n`. -/
structure CopyEnv where
  encEnforced : Bool
  dstEncrypted : Bool
  latencyMs : Int
  ensureSrcResp : Except PyErr Unit
  ensureDstResp : Except PyErr Unit
  headSrcResp : Except PyErr HeadResp
  headDstResp : Except PyErr HeadResp
  reHeadResp : Except PyErr HeadResp
  getTry : Nat → Except PyErr String
  putTry : Nat → Except PyErr Unit
  now : Int
  token : String

/-- `sm and dm and sm.get("etag") == dm.get("etag") and sm.get("size") == dm.get("size")`. -/
def smdmEq : Option SmMeta → Option SmMeta → Bool
  | some a, some b => a.etag == b.etag && a.size == b.size
  | _, _ => false

/-- The growing-file probe: re-HEAD the source; on any exception proceed
(`except Exception: pass`); otherwise growing iff `LastModified` is present
and `now - last_modified < 5`. -/
def growingCheck : Except PyErr HeadResp → Int → Bool
  | .ok h, now =>
      match h.lastModified with
      | some lm => decide (now - lm < 5)
      | none => false
  | .error _, _ => false

/-- The retry loop (`for attempt in range(max_retries + 1)` with
`backoff = 1` doubling after each throttled try).  The argument list is the
remaining attempt indices; the unreachable-by-control-flow line after the
Python loop is the `[]` case. -/
def copyLoop (key src dst : String) (env : CopyEnv) (size : Int) :
    List Nat → Nat → Except PyErr Outcome × List Act
  | [], _ => (.ok (.failed "max_retries_exceeded"), [])
  | a :: rest, backoff =>
    match env.getTry a with
    | .error e =>
      if isClientThrottle e ∧ a < maxRetries then
        let r := copyLoop key src dst env size rest (backoff * 2)
        (r.1, Act.getObj src key :: Act.sleepS backoff :: r.2)
      else (.error e, [Act.getObj src key])
    | .ok body =>
      match env.putTry a with
      | .error e =>
        if isClientThrottle e ∧ a < maxRetries then
          let r := copyLoop key src dst env size rest (backoff * 2)
          (r.1, Act.getObj src key :: Act.putObj dst key body :: Act.sleepS backoff :: r.2)
        else (.error e, [Act.getObj src key, Act.putObj dst key body])
      | .ok _ => (.ok (.copied size env.token), [Act.getObj src key, Act.putObj dst key body])

/-- Body of `_ensure_and_copy_once` after the growing-file probe result has
been computed (the probe's boolean is `growing`). -/
def copyOnceAux (key src dst : String) (env : CopyEnv) (growing : Bool) :
    Except PyErr Outcome × List Act :=
  if env.encEnforced = true ∧ env.dstEncrypted = false then
    (.ok (.blocked "destination_not_encrypted"), [])
  else
    let tr0 : List Act := if env.latencyMs > 0 then [Act.chaosSleep env.latencyMs] else []
    match env.ensureSrcResp with
    | .error e => (.error e, tr0 ++ [Act.ensureBucket src])
    | .ok _ =>
      match env.ensureDstResp with
      | .error e => (.error e, tr0 ++ [Act.ensureBucket src, Act.ensureBucket dst])
      | .ok _ =>
        let tr1 := tr0 ++ [Act.ensureBucket src, Act.ensureBucket dst]
        match headMeta env.headSrcResp with
        | .error e => (.error e, tr1 ++ [Act.headObj src key])
        | .ok sm =>
          match headMeta env.headDstResp with
          | .error e => (.error e, tr1 ++ [Act.headObj src key, Act.headObj dst key])
          | .ok dm =>
            let tr2 := tr1 ++ [Act.headObj src key, Act.headObj dst key]
            if smdmEq sm dm then (.ok .noop, tr2)
            else
              match sm, dm with
              | none, some _ => (.ok .noop, tr2)
              | none, none => (.ok .missingSource, tr2)
              | some smv, _ =>
                if smv.size = 0 then (.ok (.skipped "empty_source"), tr2)
                else
                  let tr3 := tr2 ++ [Act.headObj src key]
                  if growing then (.ok (.skipped "file_growing"), tr3)
                  else
                    let r := copyLoop key src dst env smv.size (List.range (maxRetries + 1)) 1
                    (r.1, tr3 ++ r.2)

/-- `_ensure_and_copy_once(key, src, dst)` under environment `env`. -/
def copyOnce (key src dst : String) (env : CopyEnv) : Except PyErr Outcome × List Act :=
  copyOnceAux key src dst env (growingCheck env.reHeadResp env.now)

/-- `_cleanup_once(key, src)` applied to the DELETE response. -/
def cleanupOnce (key src : String) (resp : Except PyErr Unit) :
    Except PyErr Outcome × List Act :=
  match resp with
  | .ok _ => (.ok .deleted, [Act.deleteObj src key])
  | .error (.clientError c) =>
      if notFoundCode c then (.ok .noop, [Act.deleteObj src key])
      else (.error (.clientError c), [Act.deleteObj src key])
  | .error e => (.error e, [Act.deleteObj src key])

/-- Number of PUTs in a trace. -/
def putCount (tr : List Act) : Nat :=
  (tr.filter fun a => match a with | .putObj .. => true | _ => false).length

/-- Number of GETs in a trace. -/
def getCount (tr : List Act) : Nat :=
  (tr.filter fun a => match a with | .getObj .. => true | _ => false).length

/-- The backoff sleeps of a trace, in seconds, in order. -/
def sleepsOf (tr : List Act) : List Nat :=
  tr.filterMap fun a => match a with | .sleepS n => some n | _ => none

/-- The alerts of a trace. -/
def alertsOf (tr : List Act) : List Act :=
  tr.filter fun a => match a with | .alert .. => true | _ => false

/-- A `MigrationTask` row. -/
structure Task where
  id : Nat
  key : String
  src : String
  dst : String
  status : String
  attempts : Nat
  error : String
  createdAt : Int
deriving DecidableEq

/-- Effect of a tick on the claimed row: mutate-and-commit, or delete. -/
inductive StoreAction where
  | update (t : Task)
  | delete
deriving DecidableEq

/-- Copy-phase half of `process_queue_once` (lines 145-177): maps the claimed
task and the result of `_ensure_and_copy_once` (value or raised exception) to
the row's fate and the metric/FileMeta actions. -/
def processCopy (t : Task) (r : Except PyErr Outcome) : StoreAction × List Act :=
  let step :=
    match r with
    | .error e =>
        ({ t with status := "failed", error := pyStrErr e }, [Act.counterInc "error"])
    | .ok o =>
      if outcomeStatus o = "copied" ∨ outcomeStatus o = "noop" then
        ({ t with status := "done", error := "" },
          Act.counterInc (outcomeStatus o) ::
            (match o with
             | .copied _ tok => [Act.setVersionToken t.key tok]
             | _ => []))
      else if outcomeStatus o = "missing_source" then
        ({ t with status := "failed", error := "missing_source" },
          [Act.counterInc "missing_source"])
      else if outcomeStatus o = "blocked" then
        ({ t with status := "failed", error := blockedReason o },
          [Act.counterInc "blocked"])
      else
        ({ t with status := "failed", error := pyStrOutcome o }, [])
  let t1 := step.1
  if t1.status = "failed" then
    let t2 := { t1 with attempts := t1.attempts + 1 }
    if MAX_ATTEMPTS ≤ t2.attempts then (StoreAction.delete, step.2)
    else (StoreAction.update { t2 with status := "queued" }, step.2)
  else (StoreAction.update t1, step.2)

/-- Cleanup-phase half of `process_queue_once` (lines 179-195). -/
def processCleanup (t : Task) (r : Except PyErr Outcome) : StoreAction × List Act :=
  let step :=
    match r with
    | .ok o => ({ t with status := "done", error := "" }, [Act.counterInc (outcomeStatus o)])
    | .error e =>
        ({ t with status := "failed", error := pyStrErr e }, [Act.counterInc "cleanup_error"])
  let t1 := step.1
  if t1.status = "failed" then
    let t2 := { t1 with attempts := t1.attempts + 1 }
    if MAX_ATTEMPTS ≤ t2.attempts then (StoreAction.delete, step.2)
    else (StoreAction.update { t2 with status := "cleanup" }, step.2)
  else (StoreAction.update t1, step.2)

/-- `t.status in ("queued", "cleanup", "failed")`: the pickup filter. -/
def eligible (t : Task) : Bool :=
  t.status = "queued" ∨ t.status = "cleanup" ∨ t.status = "failed"

/-- `claim_next`: oldest eligible row by `created_at` (first in store order on
ties). -/
def claimNext (store : List Task) : Option Task :=
  (store.filter eligible).foldl
    (fun acc t =>
      match acc with
      | none => some t
      | some b => if t.createdAt < b.createdAt then some t else some b)
    none

/-- First-match association lookup, as Python dict access. -/
def dlookup : List (String × Nat) → String → Option Nat
  | [], _ => none
  | (k, v) :: rest, key => if k = key then some v else dlookup rest key

/-- Python `d[key] = v`: overwrite if present, append otherwise. -/
def dictSet (d : List (String × Nat)) (key : String) (v : Nat) : List (String × Nat) :=
  if d.any (fun p => p.1 = key) then
    d.map (fun p => if p.1 = key then (key, v) else p)
  else d ++ [(key, v)]

/-- `_QUEUE_STATUSES`. -/
def queueStatuses : List String := ["queued", "running", "done", "failed", "cleanup"]

/-- `counts = \x7bstatus: 0 for status in _QUEUE_STATUSES\x7d`. -/
def initCounts : List (String × Nat) := queueStatuses.map (fun s => (s, 0))

/-- `_update_queue_metrics` applied to the `group_by(status)` rows: zero-fill
the five statuses, set one gauge per count, and alert when `queued > 20`. -/
def updateQueueMetrics (rows : List (String × Nat)) : List Act :=
  let counts := rows.foldl (fun d p => dictSet d p.1 p.2) initCounts
  let gauges := counts.map (fun p => Act.gaugeSet p.1 p.2)
  let queued := (dlookup counts "queued").getD 0
  gauges ++
    (if queued > 20 then
      [Act.alert "migration_backlog" "warning"
        (toString queued ++ " migration tasks queued") queued]
     else [])

/-- The `group_by(MigrationTask.status)` rows of a store. -/
def groupRows (store : List Task) : List (String × Nat) :=
  ((store.map Task.status).dedup).map
    (fun s => (s, (store.filter (fun t => t.status = s)).length))

/-- Commit the claimed row's fate to the store. -/
def applyStore (store : List Task) (t : Task) : StoreAction → List Task
  | .update t2 => store.map (fun x => if x.id = t.id then t2 else x)
  | .delete => store.filter (fun x => x.id ≠ t.id)

/-- `process_queue_once()`: claim the oldest eligible task, run its phase,
commit, refresh the queue metrics.  `env` gives the storage responses of the
tick's copy call and `delResp` of its DELETE call. -/
def processQueueOnce (store : List Task) (env : CopyEnv) (delResp : Except PyErr Unit) :
    List Task × Bool × List Act :=
  match claimNext store with
  | none => (store, false, updateQueueMetrics (groupRows store))
  | some t =>
    if t.status = "queued" ∨ t.status = "failed" then
      let r := copyOnce t.key t.src t.dst env
      let pa := processCopy t r.1
      let store2 := applyStore store t pa.1
      (store2, true, r.2 ++ pa.2 ++ updateQueueMetrics (groupRows store2))
    else if t.status = "cleanup" then
      let r := cleanupOnce t.key t.src delResp
      let pa := processCleanup t r.1
      let store2 := applyStore store t pa.1
      (store2, true, r.2 ++ pa.2 ++ updateQueueMetrics (groupRows store2))
    else (store, false, [])

/-! ### A deterministic two-endpoint world

Both endpoints store whole objects and report `ETag = etagOf body`,
`ContentLength = |body|`, `LastModified` as stored; no request fails and no
throttling occurs.  Running `copyOnce` against the world and folding its PUT /
DELETE actions back into the stores gives the repeated-run semantics. -/

/-- A stored object. -/
structure Obj where
  body : String
  lastModified : Int
deriving DecidableEq

/-- Two object stores plus the endpooint's content-hash function and a clock. -/
structure World where
  srcStore : String → Option Obj
  dstStore : String → Option Obj
  etagOf : String → String
  now : Int
  token : String

/-- The HEAD response an endpoint with store `store` gives for `key`. -/
def headOf (store : String → Option Obj) (etagOf : String → String) (key : String) :
    Except PyErr HeadResp :=
  match store key with
  | some o => .ok ⟨some (etagOf o.body), some (o.body.length : Int), some o.lastModified⟩
  | none => .error (.clientError (some "404"))

/-- The copy environment the world presents for one call on `key`. -/
def envOfWorld (w : World) (key : String) : CopyEnv :=
  { encEnforced := false
    dstEncrypted := true
    latencyMs := 0
    ensureSrcResp := .ok ()
    ensureDstResp := .ok ()
    headSrcResp := headOf w.srcStore w.etagOf key
    headDstResp := headOf w.dstStore w.etagOf key
    reHeadResp := headOf w.srcStore w.etagOf key
    getTry := fun _ =>
      match w.srcStore key with
      | some o => .ok o.body
      | none => .error (.clientError (some "NoSuchKey"))
    putTry := fun _ => .ok ()
    now := w.now
    token := w.token }

/-- Fold one performed action back into the world: PUTs write the destination,
DELETEs remove from the source. -/
def applyAct (w : World) : Act → World
  | .putObj _ k b =>
      { w with dstStore := fun x => if x = k then some ⟨b, w.now⟩ else w.dstStore x }
  | .deleteObj _ k =>
      { w with srcStore := fun x => if x = k then none else w.srcStore x }
  | _ => w

/-- Fold a trace back into the world. -/
def applyActs (w : World) (acts : List Act) : World := acts.foldl applyAct w

/-- The world after a PUT of `b` under `key` to the destination. -/
def wAfterPut (w : World) (key b : String) : World :=
  { w with dstStore := fun x => if x = key then some ⟨b, w.now⟩ else w.dstStore x }

/-- One `copy_once` call against the world. -/
def runCopy (w : World) (key : String) : Except PyErr Outcome × World :=
  let r := copyOnce key "src" "dst" (envOfWorld w key)
  (r.1, applyActs w r.2)

/-- `n` successive `copy_once` calls; returns the outcome list. -/
def runCopies (w : World) (key : String) : Nat → List (Except PyErr Outcome)
  | 0 => []
  | n + 1 =>
    let r := runCopy w key
    r.1 :: runCopies r.2 key n

/-- The DELETE response the world's source endpoint gives: success when the
object exists, `NoSuchKey` when absent. -/
def delRespOf (w : World) (key : String) : Except PyErr Unit :=
  match w.srcStore key with
  | some _ => .ok ()
  | none => .error (.clientError (some "NoSuchKey"))

/-- One `cleanup_once` call against the world. -/
def runCleanup (w : World) (key : String) : Except PyErr Outcome × World :=
  let r := cleanupOnce key "src" (delRespOf w key)
  (r.1, applyActs w r.2)

/-- `n` successive `cleanup_once` calls; returns the outcome list. -/
def runCleanups (w : World) (key : String) : Nat → List (Except PyErr Outcome)
  | 0 => []
  | n + 1 =>
    let r := runCleanup w key
    r.1 :: runCleanups r.2 key n

/-- Concrete environment in which every GET try raises a `ClientError` with
the given code: healthy non-empty week-old source, absent destination, no
policy interference. -/
def throttledEnv (code : String) : CopyEnv :=
  { encEnforced := false, dstEncrypted := true, latencyMs := 0,
    ensureSrcResp := .ok (), ensureDstResp := .ok (),
    headSrcResp := .ok ⟨some "\"E1\"", some 100, some 0⟩,
    headDstResp := .error (.clientError (some "404")),
    reHeadResp := .ok ⟨some "\"E1\"", some 100, some 0⟩,
    getTry := fun _ => .error (.clientError (some code)),
    putTry := fun _ => .ok (),
    now := 100, token := "tok" }

/-- Concrete environment: the source object is empty (size 0) and the
destination already holds an object with identical etag and size. -/
def emptyMatchedEnv : CopyEnv :=
  { encEnforced := false, dstEncrypted := true, latencyMs := 0,
    ensureSrcResp := .ok (), ensureDstResp := .ok (),
    headSrcResp := .ok ⟨some "\"E0\"", some 0, some 0⟩,
    headDstResp := .ok ⟨some "\"E0\"", some 0, some 0⟩,
    reHeadResp := .ok ⟨some "\"E0\"", some 0, some 0⟩,
    getTry := fun _ => .ok "", putTry := fun _ => .ok (),
    now := 100, token := "tok" }

/-- Concrete head responses that differ only in `LastModified`. -/
def headRespA : HeadResp := ⟨some "\"abc\"", some 7, some 1000⟩

/-- See `headRespA`. -/
def headRespB : HeadResp := ⟨some "\"abc\"", some 7, some 2000⟩

/-- Concrete one-object world used by witnesses. -/
def w0 : World :=
  { srcStore := fun k => if k = "a/b" then some ⟨"BODY", 0⟩ else none,
    dstStore := fun _ => none,
    etagOf := fun b => b ++ "#h",
    now := 60, token := "tok" }

/-- Concrete task used by witnesses. -/
def t0 : Task :=
  { id := 1, key := "a/b", src := "s1", dst := "s2", status := "queued",
    attempts := 0, error := "", createdAt := 0 }

/-- `true` iff the copy-phase result takes the failed path (not `copied` or
`noop`, including raised exceptions). -/
def isCopyFailure : Except PyErr Outcome → Bool
  | .error _ => true
  | .ok o => !(outcomeStatus o == "copied" || outcomeStatus o == "noop")

/-- The row `t0` becomes after a failed tick with a skipped-"x" outcome. -/
def t0Requeued : Task :=
  { t0 with status := "queued", error := pyStrOutcome (.skipped "x"), attempts := 1 }

end Migrator

namespace Chaos

/-- The settings store, a persisted key-value table of strings. -/
abbrev Settings := List (String × String)

/-- Modelled from the spec: the settings store's getter (`app/common/settings.py`
is not part of the sources); returns the stored string for a key. -/
def getSetting (st : Settings) (k : String) : Option String := List.lookup k st

/-- Modelled from the spec: `set_setting(key, string)` persists the string
under the key (modelled as a shadowing association list; `getSetting` reads
the first match). -/
def setSetting (st : Settings) (k v : String) : Settings := (k, v) :: st

/-- Modelled from the spec: `get_list` splits the stored comma-joined string
into its items, returning the empty list when unset (safe default). -/
def getList (st : Settings) (k : String) : List String :=
  match getSetting st k with
  | none => []
  | some s => (s.splitOn ",").filter (fun x => x ≠ "")

/-- Modelled from the spec: `get_int` parses the stored string as an integer,
`none` when unset or unparsable (safe default). -/
def getInt (st : Settings) (k : String) : Option Int :=
  (getSetting st k).bind String.toInt?

def FAIL_KEY : String := "chaos_fail_endpoints"

def LATENCY_KEY : String := "chaos_latency_ms"

/-- Insertion into a `<`-sorted duplicate-free list, keeping it so. -/
def sortedInsert (x : String) : List String → List String
  | [] => [x]
  | y :: ys =>
    if x < y then x :: y :: ys
    else if x = y then y :: ys
    else y :: sortedInsert x ys

/-- Python `sorted(set(l))`. -/
def pySortedSet (l : List String) : List String := l.foldr sortedInsert []

/-- `get_failed_endpoints()`. -/
def getFailedEndpoints (st : Settings) : List String := getList st FAIL_KEY

/-- `fail_endpoint(name)`: add to the set, persist the comma-joined sorted
string, return the sorted list.  Result: (new settings, returned list). -/
def failEndpoint (st : Settings) (name : String) : Settings × List String :=
  let newList := pySortedSet (name :: getFailedEndpoints st)
  (setSetting st FAIL_KEY (String.intercalate "," newList), newList)

/-- `recover_endpoint(name)`: remove from the set, persist, return. -/
def recoverEndpoint (st : Settings) (name : String) : Settings × List String :=
  let newList := pySortedSet ((getFailedEndpoints st).filter (fun a => a ≠ name))
  (setSetting st FAIL_KEY (String.intercalate "," newList), newList)

/-- `get_latency()`: `settings.get_int(LATENCY_KEY) or 0`. -/
def getLatency (st : Settings) : Int := (getInt st LATENCY_KEY).getD 0

/-- `set_latency(ms)`: persist and echo back. -/
def setLatency (st : Settings) (ms : Int) : Settings × Int :=
  (setSetting st LATENCY_KEY (toString ms), ms)

/-- Concrete settings store used by witnesses. -/
def demoSettings : Settings := [("chaos_fail_endpoints", "s2,s1")]

end Chaos

namespace Migrator

/-! ### Helper lemmas -/

theorem smdmEq_some_some {a b : SmMeta} (he : a.etag = b.etag) (hs : a.size = b.size) :
    smdmEq (some a) (some b) = true := by
  simp [smdmEq, he, hs]

theorem putCount_append (a b : List Act) : putCount (a ++ b) = putCount a + putCount b := by
  simp [putCount, List.filter_append]

/-- Branch equation: a `blocked` outcome takes the failed path with
`error = reason` and the `result="blocked"` counter. -/
theorem processCopy_blocked (t : Task) (reason : String) :
    processCopy t (.ok (.blocked reason)) =
      (if MAX_ATTEMPTS ≤ t.attempts + 1 then StoreAction.delete
       else StoreAction.update
         { t with status := "queued", error := reason, attempts := t.attempts + 1 },
       [Act.counterInc "blocked"]) := by
  simp [processCopy, outcomeStatus, blockedReason]
  split <;> rfl

/-- Branch equation: a raised exception takes the failed path with the
`result="error"` counter. -/
theorem processCopy_error (t : Task) (e : PyErr) :
    processCopy t (.error e) =
      (if MAX_ATTEMPTS ≤ t.attempts + 1 then StoreAction.delete
       else StoreAction.update
         { t with status := "queued", error := pyStrErr e, attempts := t.attempts + 1 },
       [Act.counterInc "error"]) := by
  simp [processCopy, outcomeStatus, blockedReason]
  split <;> rfl

/-- Branch equation: a `skipped` outcome takes the failed path (no counter). -/
theorem processCopy_skipped (t : Task) (reason : String) :
    processCopy t (.ok (.skipped reason)) =
      (if MAX_ATTEMPTS ≤ t.attempts + 1 then StoreAction.delete
       else StoreAction.update
         { t with status := "queued", error := pyStrOutcome (.skipped reason),
                  attempts := t.attempts + 1 },
       []) := by
  simp [processCopy, outcomeStatus, blockedReason]
  split <;> rfl

/-- Branch equation: a `missing_source` outcome takes the failed path. -/
theorem processCopy_missing (t : Task) :
    processCopy t (.ok .missingSource) =
      (if MAX_ATTEMPTS ≤ t.attempts + 1 then StoreAction.delete
       else StoreAction.update
         { t with status := "queued", error := "missing_source", attempts := t.attempts + 1 },
       [Act.counterInc "missing_source"]) := by
  simp [processCopy, outcomeStatus, blockedReason]
  split <;> rfl

/-- Branch equation: a `failed` outcome dict takes the failed path. -/
theorem processCopy_failedOutcome (t : Task) (msg : String) :
    processCopy t (.ok (.failed msg)) =
      (if MAX_ATTEMPTS ≤ t.attempts + 1 then StoreAction.delete
       else StoreAction.update
         { t with status := "queued", error := pyStrOutcome (.failed msg),
                  attempts := t.attempts + 1 },
       []) := by
  simp [processCopy, outcomeStatus, blockedReason]
  split <;> rfl

/-- Branch equation: `copied` marks the row done and writes the version token. -/
theorem processCopy_copied (t : Task) (size : Int) (tok : String) :
    processCopy t (.ok (.copied size tok)) =
      (StoreAction.update { t with status := "done", error := "" },
       [Act.counterInc "copied", Act.setVersionToken t.key tok]) := rfl

/-- Branch equation: `noop` marks the row done. -/
theorem processCopy_noop (t : Task) :
    processCopy t (.ok .noop) =
      (StoreAction.update { t with status := "done", error := "" },
       [Act.counterInc "noop"]) := rfl

/-- Branch equation: a successful cleanup marks the row done. -/
theorem processCleanup_ok (t : Task) (o : Outcome) :
    processCleanup t (.ok o) =
      (StoreAction.update { t with status := "done", error := "" },
       [Act.counterInc (outcomeStatus o)]) := rfl

/-- Branch equation: a raised cleanup exception takes the failed path with the
`cleanup` requeue status. -/
theorem processCleanup_error (t : Task) (e : PyErr) :
    processCleanup t (.error e) =
      (if MAX_ATTEMPTS ≤ t.attempts + 1 then StoreAction.delete
       else StoreAction.update
         { t with status := "cleanup", error := pyStrErr e, attempts := t.attempts + 1 },
       [Act.counterInc "cleanup_error"]) := by
  simp [processCleanup, outcomeStatus]
  split <;> rfl

/-- Evaluation of `copyOnceAux` once the gate passes, both `ensure_bucket`
calls succeed and both `_head_meta` applications return. -/
theorem copyOnceAux_guards (key src dst : String) (env : CopyEnv) (g : Bool)
    (sm dm : Option SmMeta)
    (henc : env.encEnforced = false)
    (hes : env.ensureSrcResp = .ok ()) (hed : env.ensureDstResp = .ok ())
    (hhs : headMeta env.headSrcResp = .ok sm) (hhd : headMeta env.headDstResp = .ok dm) :
    copyOnceAux key src dst env g =
      (let tr0 : List Act :=
         if env.latencyMs > 0 then [Act.chaosSleep env.latencyMs] else []
       let tr2 := (tr0 ++ [Act.ensureBucket src, Act.ensureBucket dst]) ++
         [Act.headObj src key, Act.headObj dst key]
       if smdmEq sm dm then (.ok .noop, tr2)
       else
         match sm, dm with
         | none, some _ => (.ok .noop, tr2)
         | none, none => (.ok .missingSource, tr2)
         | some smv, _ =>
           if smv.size = 0 then (.ok (.skipped "empty_source"), tr2)
           else
             let tr3 := tr2 ++ [Act.headObj src key]
             if g then (.ok (.skipped "file_growing"), tr3)
             else
               let r := copyLoop key src dst env smv.size (List.range (maxRetries + 1)) 1
               (r.1, tr3 ++ r.2)) := by
  unfold copyOnceAux
  rw [if_neg (by simp [henc])]
  rw [hes, hed, hhs, hhd]

/-! ### C1 -/

/-- C1: when every GET/PUT try raises a storage error with a throttling code,
the engine makes exactly 4 tries and sleeps 1, 2, 4 seconds between
consecutive tries — but the call does not return
`\x7bfailed, max_retries_exceeded\x7d`: it re-raises the final throttling
error (the `return` after the loop is unreachable). -/
theorem c1_all_throttled (code : String)
    (hc : code ∈ ["429", "503", "Throttling", "TooManyRequests", "SlowDown"]) :
    (copyOnce "k" "s" "d" (throttledEnv code)).1 = .error (.clientError (some code)) ∧
    getCount (copyOnce "k" "s" "d" (throttledEnv code)).2 = 4 ∧
    sleepsOf (copyOnce "k" "s" "d" (throttledEnv code)).2 = [1, 2, 4] ∧
    (copyOnce "k" "s" "d" (throttledEnv code)).1 ≠ .ok (.failed "max_retries_exceeded") := by
  fin_cases hc <;> exact ⟨by decide, by decide, by decide, by decide⟩

/-- C1 witness: the concrete all-`SlowDown` run. -/
theorem c1_all_throttled_witness :
    "SlowDown" ∈ ["429", "503", "Throttling", "TooManyRequests", "SlowDown"] ∧
    ((copyOnce "k" "s" "d" (throttledEnv "SlowDown")).1 =
        .error (.clientError (some "SlowDown")) ∧
     getCount (copyOnce "k" "s" "d" (throttledEnv "SlowDown")).2 = 4 ∧
     sleepsOf (copyOnce "k" "s" "d" (throttledEnv "SlowDown")).2 = [1, 2, 4] ∧
     (copyOnce "k" "s" "d" (throttledEnv "SlowDown")).1 ≠
        .ok (.failed "max_retries_exceeded")) :=
  ⟨by decide, c1_all_throttled "SlowDown" (by decide)⟩

/-! ### C7 -/

/-- C7: with enforcement on and an unencrypted destination, `copy_once`
returns `\x7bblocked, destination_not_encrypted\x7d` with an empty action
trace (so before any bucket, HEAD, GET or PUT I/O), and the processor takes
the failed path: error `destination_not_encrypted`, attempts incremented, the
`migration_jobs_total\x7bresult="blocked"\x7d` counter incremented. -/
theorem c7_encryption_gate (key src dst : String) (env : CopyEnv) (t : Task)
    (henc : env.encEnforced = true) (hdst : env.dstEncrypted = false) :
    copyOnce key src dst env = (.ok (.blocked "destination_not_encrypted"), []) ∧
    (processCopy t (copyOnce key src dst env).1).2 = [Act.counterInc "blocked"] ∧
    (t.attempts + 1 < MAX_ATTEMPTS →
      (processCopy t (copyOnce key src dst env).1).1 =
        StoreAction.update
          { t with status := "queued", error := "destination_not_encrypted",
                   attempts := t.attempts + 1 }) ∧
    (MAX_ATTEMPTS ≤ t.attempts + 1 →
      (processCopy t (copyOnce key src dst env).1).1 = StoreAction.delete) := by
  have h1 : copyOnce key src dst env = (.ok (.blocked "destination_not_encrypted"), []) := by
    unfold copyOnce copyOnceAux
    rw [if_pos ⟨henc, hdst⟩]
  refine ⟨h1, ?_, ?_, ?_⟩
  · rw [h1, processCopy_blocked]
  · intro hlt
    rw [h1, processCopy_blocked]
    simp [if_neg (Nat.not_le_of_lt hlt)]
  · intro hge
    rw [h1, processCopy_blocked]
    simp [if_pos hge]

/-- C7 witness: concrete blocked tick on a fresh task. -/
theorem c7_encryption_gate_witness :
    copyOnce "a/b" "s1" "s2" { throttledEnv "x" with encEnforced := true, dstEncrypted := false } =
      (.ok (.blocked "destination_not_encrypted"), []) ∧
    (processCopy t0 (copyOnce "a/b" "s1" "s2"
        { throttledEnv "x" with encEnforced := true, dstEncrypted := false }).1).2 =
      [Act.counterInc "blocked"] ∧
    (t0.attempts + 1 < MAX_ATTEMPTS →
      (processCopy t0 (copyOnce "a/b" "s1" "s2"
          { throttledEnv "x" with encEnforced := true, dstEncrypted := false }).1).1 =
        StoreAction.update
          { t0 with status := "queued", error := "destination_not_encrypted",
                    attempts := t0.attempts + 1 }) ∧
    (MAX_ATTEMPTS ≤ t0.attempts + 1 →
      (processCopy t0 (copyOnce "a/b" "s1" "s2"
          { throttledEnv "x" with encEnforced := true, dstEncrypted := false }).1).1 =
        StoreAction.delete) :=
  c7_encryption_gate "a/b" "s1" "s2"
    { throttledEnv "x" with encEnforced := true, dstEncrypted := false } t0 rfl rfl

/-! ### Quote-stripping characterisation -/

theorem dropWhile_head_false (p : Char → Bool) (l : List Char) :
    ∀ x, (l.dropWhile p).head? = some x → p x = false := by
  induction l with
  | nil => intro x h; simp at h
  | cons a as ih =>
    intro x h
    rw [List.dropWhile_cons] at h
    by_cases hpa : p a = true
    · rw [if_pos hpa] at h; exact ih x h
    · rw [if_neg hpa] at h
      simp only [List.head?_cons, Option.some.injEq] at h
      subst h
      simpa [Bool.not_eq_true] using hpa

theorem takeWhile_quotes_replicate (l : List Char) :
    l.takeWhile (fun c => c == '"') =
      List.replicate (l.takeWhile (fun c => c == '"')).length '"' := by
  apply List.eq_replicate_of_mem
  intro b hb
  have := List.mem_takeWhile_imp hb
  simpa using this

/-- Every string decomposes as leading quotes, its stripped core, trailing
quotes; the core starts and ends with a non-quote. -/
theorem stripChars_spec (l : List Char) :
    ∃ a b, l = List.replicate a '"' ++ stripChars l ++ List.replicate b '"' ∧
      (stripChars l).head? ≠ some '"' ∧
      (stripChars l).reverse.head? ≠ some '"' := by
  have hdecomp : ∀ m : List Char,
      List.replicate (List.takeWhile (fun c => c == '"') m).length '"' ++
        List.dropWhile (fun c => c == '"') m = m := by
    intro m
    rw [← takeWhile_quotes_replicate m]
    exact List.takeWhile_append_dropWhile _ m
  have hm : List.dropWhile (fun c => c == '"') l =
      stripChars l ++
        List.replicate
          (List.takeWhile (fun c => c == '"')
            (List.dropWhile (fun c => c == '"') l).reverse).length '"' := by
    conv_lhs =>
      rw [← List.reverse_reverse (List.dropWhile (fun c => c == '"') l),
        ← hdecomp (List.dropWhile (fun c => c == '"') l).reverse,
        List.reverse_append, List.reverse_replicate]
    rfl
  refine ⟨(List.takeWhile (fun c => c == '"') l).length,
    (List.takeWhile (fun c => c == '"')
      (List.dropWhile (fun c => c == '"') l).reverse).length, ?_, ?_, ?_⟩
  · conv_lhs => rw [← hdecomp l, hm]
    rw [List.append_assoc]
  · rcases hc : stripChars l with _ | ⟨c, cs⟩
    · simp [hc]
    · have hhead : (List.dropWhile (fun c => c == '"') l).head? = some c := by
        rw [hm, hc]; rfl
      have hP := dropWhile_head_false (fun c => c == '"') l c hhead
      simp only [List.head?_cons, ne_eq, Option.some.injEq]
      intro hc2
      subst hc2
      simp at hP
  · have hrev : (stripChars l).reverse =
        List.dropWhile (fun c => c == '"')
          (List.dropWhile (fun c => c == '"') l).reverse := by
      rw [stripChars, List.reverse_reverse]
    rw [hrev]
    rcases hc : List.dropWhile (fun c => c == '"')
        (List.dropWhile (fun c => c == '"') l).reverse with _ | ⟨c, cs⟩
    · simp [hc]
    · have hhead : (List.dropWhile (fun c => c == '"')
          (List.dropWhile (fun c => c == '"') l).reverse).head? = some c := by
        rw [hc]; rfl
      have hP := dropWhile_head_false (fun c => c == '"')
        (List.dropWhile (fun c => c == '"') l).reverse c hhead
      simp only [List.head?_cons, ne_eq, Option.some.injEq]
      intro hc2
      subst hc2
      simp at hP

theorem stripQuotes_toList (s : String) : (stripQuotes s).toList = stripChars s.toList := rfl

/-! ### C4 -/

/-- C4 counterexample: two head responses that differ only in `LastModified`
produce identical `_head_meta` results, so the returned record cannot contain
`last_modified` (the claim says it returns `\x7betag, size, last_modified\x7d`). -/
theorem c4_head_meta_counterexample :
    headRespA.lastModified ≠ headRespB.lastModified ∧
    headRespA.etag = headRespB.etag ∧
    headRespA.contentLength = headRespB.contentLength ∧
    headMeta (.ok headRespA) = headMeta (.ok headRespB) ∧
    headMeta (.ok headRespA) = .ok (some ⟨"abc", 7⟩) := by
  refine ⟨by decide, rfl, rfl, rfl, by decide⟩

/-- C4 (amended): `_head_meta` returns a record of `etag` (stripped of every
surrounding quote character) and `size` only — no `last_modified`; on error
codes 404 / NoSuchKey / NotFound it returns absent without raising; any other
storage error propagates. -/
theorem c4_head_meta :
    (∀ r : HeadResp,
       headMeta (.ok r) =
         .ok (some ⟨stripQuotes (r.etag.getD ""), r.contentLength.getD 0⟩)) ∧
    (∀ s : String, ∃ a b,
       s.toList = List.replicate a '"' ++ (stripQuotes s).toList ++ List.replicate b '"' ∧
       (stripQuotes s).toList.head? ≠ some '"' ∧
       (stripQuotes s).toList.reverse.head? ≠ some '"') ∧
    (∀ c, notFoundCode c = true → headMeta (.error (.clientError c)) = .ok none) ∧
    (∀ c, notFoundCode c = false →
       headMeta (.error (.clientError c)) = .error (.clientError c)) ∧
    (∀ m, headMeta (.error (.otherExn m)) = .error (.otherExn m)) := by
  refine ⟨fun r => rfl, ?_, ?_, ?_, fun m => rfl⟩
  · intro s
    have := stripChars_spec s.toList
    simpa [stripQuotes_toList] using this
  · intro c h; simp [headMeta, h]
  · intro c h; simp [headMeta, h]

/-- C4 witness: concrete not-found and propagating error codes. -/
theorem c4_head_meta_witness :
    headMeta (.error (.clientError (some "NoSuchKey"))) = .ok none ∧
    headMeta (.error (.clientError (some "500"))) = .error (.clientError (some "500")) :=
  ⟨c4_head_meta.2.2.1 (some "NoSuchKey") (by decide),
   c4_head_meta.2.2.2.1 (some "500") (by decide)⟩

/-! ### C5 -/

/-- C5 counterexample: a size-0 source whose destination already holds an
identical object makes `copy_once` return `\x7bnoop\x7d`, not
`\x7bskipped, empty_source\x7d`, refuting the unconditional claim. -/
theorem c5_skip_guards_counterexample :
    headMeta emptyMatchedEnv.headSrcResp = .ok (some ⟨"E0", 0⟩) ∧
    (copyOnce "k" "s" "d" emptyMatchedEnv).1 = .ok .noop ∧
    (copyOnce "k" "s" "d" emptyMatchedEnv).1 ≠ .ok (.skipped "empty_source") := by
  refine ⟨by decide, by decide, by decide⟩

/-- C5 (amended): provided the encryption gate passes and the idempotence
short-circuit does not apply, a size-0 source yields
`\x7bskipped, empty_source\x7d`; a source whose (successfully re-probed)
`last_modified` is within 5 seconds of now yields
`\x7bskipped, file_growing\x7d`; in both cases no PUT is issued, and a skipped
outcome never marks the task done. -/
theorem c5_skip_guards :
    (∀ key src dst env smv dm,
       env.encEnforced = false →
       env.ensureSrcResp = .ok () → env.ensureDstResp = .ok () →
       headMeta env.headSrcResp = .ok (some smv) →
       headMeta env.headDstResp = .ok dm →
       smdmEq (some smv) dm = false →
       smv.size = 0 →
       (copyOnce key src dst env).1 = .ok (.skipped "empty_source") ∧
       putCount (copyOnce key src dst env).2 = 0) ∧
    (∀ key src dst env smv dm rh lm,
       env.encEnforced = false →
       env.ensureSrcResp = .ok () → env.ensureDstResp = .ok () →
       headMeta env.headSrcResp = .ok (some smv) →
       headMeta env.headDstResp = .ok dm →
       smdmEq (some smv) dm = false →
       smv.size ≠ 0 →
       env.reHeadResp = .ok rh → rh.lastModified = some lm → env.now - lm < 5 →
       (copyOnce key src dst env).1 = .ok (.skipped "file_growing") ∧
       putCount (copyOnce key src dst env).2 = 0) ∧
    (∀ (t : Task) (reason : String) (t2 : Task),
       (processCopy t (.ok (.skipped reason))).1 = StoreAction.update t2 →
       t2.status ≠ "done") := by
  refine ⟨?_, ?_, ?_⟩
  · intro key src dst env smv dm henc hes hed hhs hhd hne hsz
    have hg := copyOnceAux_guards key src dst env
      (growingCheck env.reHeadResp env.now) (some smv) dm henc hes hed hhs hhd
    unfold copyOnce
    rw [hg]
    cases dm with
    | none =>
      simp only [smdmEq, Bool.false_eq_true, if_false]
      rw [if_pos hsz]
      refine ⟨rfl, ?_⟩
      by_cases hl : env.latencyMs > 0 <;>
        simp [putCount, hl, List.filter_append, List.filter]
    | some dmv =>
      rw [if_neg (by simp [hne])]
      simp only []
      rw [if_pos hsz]
      refine ⟨rfl, ?_⟩
      by_cases hl : env.latencyMs > 0 <;>
        simp [putCount, hl, List.filter_append, List.filter]
  · intro key src dst env smv dm rh lm henc hes hed hhs hhd hne hsz hre hlm hrecent
    have hg := copyOnceAux_guards key src dst env
      (growingCheck env.reHeadResp env.now) (some smv) dm henc hes hed hhs hhd
    have hgrow : growingCheck env.reHeadResp env.now = true := by
      rw [hre]
      simp [growingCheck, hlm, hrecent]
    unfold copyOnce
    rw [hg, hgrow]
    cases dm with
    | none =>
      simp only [smdmEq, Bool.false_eq_true, if_false]
      rw [if_neg hsz]
      refine ⟨rfl, ?_⟩
      by_cases hl : env.latencyMs > 0 <;>
        simp [putCount, hl, List.filter_append, List.filter]
    | some dmv =>
      rw [if_neg (by simp [hne])]
      simp only []
      rw [if_neg hsz]
      refine ⟨rfl, ?_⟩
      by_cases hl : env.latencyMs > 0 <;>
        simp [putCount, hl, List.filter_append, List.filter]
  · intro t reason t2 h
    rw [processCopy_skipped] at h
    by_cases h5 : MAX_ATTEMPTS ≤ t.attempts + 1
    · rw [if_pos h5] at h
      exact absurd h (by simp)
    · rw [if_neg h5] at h
      simp only [StoreAction.update.injEq] at h
      subst h
      exact (by decide : ("queued" : String) ≠ "done")

/-- C5 witness: a size-0 source over an empty destination is skipped with no
PUT issued; a just-modified source is skipped as growing. -/
theorem c5_skip_guards_witness :
    ((copyOnce "k" "s" "d"
        { emptyMatchedEnv with headDstResp := .error (.clientError (some "404")) }).1 =
          .ok (.skipped "empty_source") ∧
      putCount (copyOnce "k" "s" "d"
        { emptyMatchedEnv with headDstResp := .error (.clientError (some "404")) }).2 = 0) ∧
    ((copyOnce "k" "s" "d"
        { throttledEnv "x" with reHeadResp := .ok ⟨some "\"E1\"", some 100, some 99⟩ }).1 =
          .ok (.skipped "file_growing") ∧
      putCount (copyOnce "k" "s" "d"
        { throttledEnv "x" with reHeadResp := .ok ⟨some "\"E1\"", some 100, some 99⟩ }).2 = 0) :=
  ⟨c5_skip_guards.1 "k" "s" "d"
      { emptyMatchedEnv with headDstResp := .error (.clientError (some "404")) }
      ⟨"E0", 0⟩ none rfl rfl rfl (by decide) (by decide) (by decide) rfl,
   c5_skip_guards.2.1 "k" "s" "d"
      { throttledEnv "x" with reHeadResp := .ok ⟨some "\"E1\"", some 100, some 99⟩ }
      ⟨"E1", 100⟩ none ⟨some "\"E1\"", some 100, some 99⟩ 99
      rfl rfl rfl (by decide) (by decide) (by decide) (by decide) rfl rfl (by decide)⟩

/-! ### C8 -/

theorem runCleanup_absent (w : World) (key : String) (h : w.srcStore key = none) :
    (runCleanup w key).1 = .ok .noop ∧ (runCleanup w key).2.srcStore key = none := by
  unfold runCleanup cleanupOnce delRespOf
  rw [h]
  refine ⟨rfl, ?_⟩
  show (List.foldl applyAct w [Act.deleteObj "src" key]).srcStore key = none
  simp [applyAct]

theorem runCleanup_present (w : World) (key : String) (o : Obj)
    (h : w.srcStore key = some o) :
    (runCleanup w key).1 = .ok .deleted ∧ (runCleanup w key).2.srcStore key = none := by
  unfold runCleanup cleanupOnce delRespOf
  rw [h]
  refine ⟨rfl, ?_⟩
  show (List.foldl applyAct w [Act.deleteObj "src" key]).srcStore key = none
  simp [applyAct]

theorem runCleanups_absent (key : String) :
    ∀ (n : Nat) (w : World), w.srcStore key = none →
      runCleanups w key n = List.replicate n (.ok .noop) := by
  intro n
  induction n with
  | zero => intro w _; rfl
  | succ k ih =>
    intro w h
    have h2 := runCleanup_absent w key h
    simp only [runCleanups]
    rw [h2.1, ih _ h2.2]
    rfl

/-- C8: `cleanup_once` returns `\x7bdeleted\x7d` on success, `\x7bnoop\x7d`
on 404 / NoSuchKey / NotFound, propagates any other error; once the object is
gone every further call returns `\x7bnoop\x7d`. -/
theorem c8_cleanup_idempotent :
    (∀ key src, (cleanupOnce key src (.ok ())).1 = .ok .deleted) ∧
    (∀ key src c, notFoundCode c = true →
       (cleanupOnce key src (.error (.clientError c))).1 = .ok .noop) ∧
    (∀ key src c, notFoundCode c = false →
       (cleanupOnce key src (.error (.clientError c))).1 = .error (.clientError c)) ∧
    (∀ key src m, (cleanupOnce key src (.error (.otherExn m))).1 = .error (.otherExn m)) ∧
    (∀ (w : World) (key : String) (o : Obj) (n : Nat), w.srcStore key = some o →
       runCleanups w key (n + 1) = .ok .deleted :: List.replicate n (.ok .noop)) := by
  refine ⟨fun key src => rfl, ?_, ?_, fun key src m => rfl, ?_⟩
  · intro key src c h; simp [cleanupOnce, h]
  · intro key src c h; simp [cleanupOnce, h]
  · intro w key o n h
    have h1 := runCleanup_present w key o h
    simp only [runCleanups]
    rw [h1.1, runCleanups_absent key n _ h1.2]

/-- C8 witness: concrete repeated cleanup runs. -/
theorem c8_cleanup_idempotent_witness :
    (cleanupOnce "k" "s" (.error (.clientError (some "NoSuchKey")))).1 = .ok .noop ∧
    (cleanupOnce "k" "s" (.error (.clientError (some "500")))).1 =
      .error (.clientError (some "500")) ∧
    runCleanups w0 "a/b" 3 = .ok .deleted :: List.replicate 2 (.ok .noop) :=
  ⟨c8_cleanup_idempotent.2.1 "k" "s" (some "NoSuchKey") (by decide),
   c8_cleanup_idempotent.2.2.1 "k" "s" (some "500") (by decide),
   c8_cleanup_idempotent.2.2.2.2 w0 "a/b" ⟨"BODY", 0⟩ 2 (by decide)⟩

/-! ### C3 -/

/-- Branch equation: a `deleted` outcome (not producible by the copy engine,
but total for the embedding) also takes the failed path. -/
theorem processCopy_deletedOutcome (t : Task) :
    processCopy t (.ok .deleted) =
      (if MAX_ATTEMPTS ≤ t.attempts + 1 then StoreAction.delete
       else StoreAction.update
         { t with status := "queued", error := pyStrOutcome .deleted,
                  attempts := t.attempts + 1 },
       []) := by
  simp [processCopy, outcomeStatus, blockedReason]
  split <;> rfl

/-- C3: every failed path increments `attempts` exactly once before deciding;
the row is deleted iff the incremented value reaches `MAX_ATTEMPTS`, else it
is requeued (`queued` from the copy phase, `cleanup` from the cleanup phase)
with `attempts < MAX_ATTEMPTS`. -/
theorem c3_attempts_policy :
    (∀ (t : Task) (r : Except PyErr Outcome), isCopyFailure r = true →
       ((processCopy t r).1 = StoreAction.delete ↔ MAX_ATTEMPTS ≤ t.attempts + 1) ∧
       (∀ t2, (processCopy t r).1 = StoreAction.update t2 →
          t2.attempts = t.attempts + 1 ∧ t2.status = "queued" ∧
            t2.attempts < MAX_ATTEMPTS)) ∧
    (∀ (t : Task) (e : PyErr),
       ((processCleanup t (.error e)).1 = StoreAction.delete ↔ MAX_ATTEMPTS ≤ t.attempts + 1) ∧
       (∀ t2, (processCleanup t (.error e)).1 = StoreAction.update t2 →
          t2.attempts = t.attempts + 1 ∧ t2.status = "cleanup" ∧
            t2.attempts < MAX_ATTEMPTS)) := by
  have main : ∀ (t : Task) (st er : String),
      ((if MAX_ATTEMPTS ≤ t.attempts + 1 then StoreAction.delete
        else StoreAction.update
          { t with status := st, error := er, attempts := t.attempts + 1 }) =
            StoreAction.delete ↔ MAX_ATTEMPTS ≤ t.attempts + 1) ∧
      (∀ t2, (if MAX_ATTEMPTS ≤ t.attempts + 1 then StoreAction.delete
        else StoreAction.update
          { t with status := st, error := er, attempts := t.attempts + 1 }) =
            StoreAction.update t2 →
          t2.attempts = t.attempts + 1 ∧ t2.status = st ∧ t2.attempts < MAX_ATTEMPTS) := by
    intro t st er
    by_cases h5 : MAX_ATTEMPTS ≤ t.attempts + 1
    · rw [if_pos h5]
      exact ⟨by simp [h5], fun t2 h => by simp at h⟩
    · rw [if_neg h5]
      refine ⟨by simp [h5], fun t2 h => ?_⟩
      simp only [StoreAction.update.injEq] at h
      subst h
      refine ⟨rfl, rfl, ?_⟩
      simp only [MAX_ATTEMPTS] at h5 ⊢
      omega
  constructor
  · intro t r hf
    match r with
    | .error e => rw [processCopy_error]; exact main t "queued" (pyStrErr e)
    | .ok (.copied size tok) => simp [isCopyFailure, outcomeStatus] at hf
    | .ok .noop => simp [isCopyFailure, outcomeStatus] at hf
    | .ok .missingSource => rw [processCopy_missing]; exact main t "queued" "missing_source"
    | .ok (.skipped reason) =>
        rw [processCopy_skipped]; exact main t "queued" (pyStrOutcome (.skipped reason))
    | .ok (.blocked reason) => rw [processCopy_blocked]; exact main t "queued" reason
    | .ok (.failed msg) =>
        rw [processCopy_failedOutcome]; exact main t "queued" (pyStrOutcome (.failed msg))
    | .ok .deleted =>
        rw [processCopy_deletedOutcome]; exact main t "queued" (pyStrOutcome .deleted)
  · intro t e
    rw [processCleanup_error]
    exact main t "cleanup" (pyStrErr e)

/-- C3 witness: a first-failure tick requeues with attempts 1 < 5. -/
theorem c3_attempts_policy_witness :
    isCopyFailure (.ok (.skipped "x")) = true ∧
    ((processCopy t0 (.ok (.skipped "x"))).1 = StoreAction.delete ↔
      MAX_ATTEMPTS ≤ t0.attempts + 1) ∧
    (t0Requeued.attempts = t0.attempts + 1 ∧ t0Requeued.status = "queued" ∧
      t0Requeued.attempts < MAX_ATTEMPTS) :=
  ⟨by decide,
   (c3_attempts_policy.1 t0 (.ok (.skipped "x")) (by decide)).1,
   (c3_attempts_policy.1 t0 (.ok (.skipped "x")) (by decide)).2 t0Requeued (by decide)⟩

end Migrator

namespace Migrator

/-! ### C2 -/

theorem headMeta_world_present (w : World) (key : String) (o : Obj)
    (h : w.srcStore key = some o) :
    headMeta (headOf w.srcStore w.etagOf key) =
      .ok (some ⟨stripQuotes (w.etagOf o.body), (o.body.length : Int)⟩) := by
  simp [headOf, h, headMeta]

theorem headMeta_world_absent (store : String → Option Obj) (etagOf : String → String)
    (key : String) (h : store key = none) :
    headMeta (headOf store etagOf key) = .ok none := by
  simp [headOf, h, headMeta, notFoundCode]

theorem runCopy_copied (w : World) (key : String) (o : Obj)
    (hs : w.srcStore key = some o) (hd : w.dstStore key = none)
    (hlen : o.body.length ≠ 0) (hfresh : 5 ≤ w.now - o.lastModified) :
    runCopy w key =
      (.ok (.copied (o.body.length : Int) w.token), wAfterPut w key o.body) := by
  have hhs : headMeta (envOfWorld w key).headSrcResp =
      .ok (some ⟨stripQuotes (w.etagOf o.body), (o.body.length : Int)⟩) := by
    simpa [envOfWorld] using headMeta_world_present w key o hs
  have hhd : headMeta (envOfWorld w key).headDstResp = .ok none := by
    simpa [envOfWorld] using headMeta_world_absent w.dstStore w.etagOf key hd
  have hg := copyOnceAux_guards key "src" "dst" (envOfWorld w key)
    (growingCheck (envOfWorld w key).reHeadResp (envOfWorld w key).now)
    (some ⟨stripQuotes (w.etagOf o.body), (o.body.length : Int)⟩) none
    rfl rfl rfl hhs hhd
  have hgrow : growingCheck (envOfWorld w key).reHeadResp (envOfWorld w key).now = false := by
    simp only [envOfWorld, headOf, hs, growingCheck]
    simp only [decide_eq_false_iff_not, not_lt]
    omega
  have hrange : List.range (maxRetries + 1) = [0, 1, 2, 3] := by decide
  have hloop : copyLoop key "src" "dst" (envOfWorld w key) ((o.body.length : Int))
      (List.range (maxRetries + 1)) 1 =
        (.ok (.copied (o.body.length : Int) w.token),
          [Act.getObj "src" key, Act.putObj "dst" key o.body]) := by
    rw [hrange]
    simp only [copyLoop, envOfWorld, hs]
  unfold runCopy
  unfold copyOnce
  rw [hg, hgrow]
  rw [if_neg (by simp [smdmEq])]
  simp only []
  rw [if_neg (by simpa using hlen)]
  simp only [Bool.false_eq_true, if_false]
  rw [hloop]
  refine Prod.ext rfl ?_
  show applyActs w
    ((((if (envOfWorld w key).latencyMs > 0 then [Act.chaosSleep (envOfWorld w key).latencyMs]
        else []) ++ [Act.ensureBucket "src", Act.ensureBucket "dst"]) ++
      [Act.headObj "src" key, Act.headObj "dst" key]) ++ [Act.headObj "src" key] ++
      [Act.getObj "src" key, Act.putObj "dst" key o.body]) = wAfterPut w key o.body
  have hlat : (envOfWorld w key).latencyMs = 0 := rfl
  rw [hlat]
  simp only [gt_iff_lt, lt_self_iff_false, if_false, List.nil_append]
  simp [applyActs, applyAct, wAfterPut]

theorem runCopy_noop (w : World) (key : String) (o o2 : Obj)
    (hs : w.srcStore key = some o) (hd : w.dstStore key = some o2)
    (hb : o2.body = o.body) :
    runCopy w key = (.ok .noop, w) := by
  have hhs : headMeta (envOfWorld w key).headSrcResp =
      .ok (some ⟨stripQuotes (w.etagOf o.body), (o.body.length : Int)⟩) := by
    simpa [envOfWorld] using headMeta_world_present w key o hs
  have hhd : headMeta (envOfWorld w key).headDstResp =
      .ok (some ⟨stripQuotes (w.etagOf o.body), (o.body.length : Int)⟩) := by
    have h2 : headMeta (headOf w.dstStore w.etagOf key) =
        .ok (some ⟨stripQuotes (w.etagOf o2.body), (o2.body.length : Int)⟩) := by
      simp [headOf, hd, headMeta]
    rw [hb] at h2
    simpa [envOfWorld] using h2
  have hg := copyOnceAux_guards key "src" "dst" (envOfWorld w key)
    (growingCheck (envOfWorld w key).reHeadResp (envOfWorld w key).now)
    (some ⟨stripQuotes (w.etagOf o.body), (o.body.length : Int)⟩)
    (some ⟨stripQuotes (w.etagOf o.body), (o.body.length : Int)⟩)
    rfl rfl rfl hhs hhd
  unfold runCopy
  unfold copyOnce
  rw [hg, if_pos (smdmEq_some_some rfl rfl)]
  refine Prod.ext rfl ?_
  show applyActs w
    (((if (envOfWorld w key).latencyMs > 0 then [Act.chaosSleep (envOfWorld w key).latencyMs]
        else []) ++ [Act.ensureBucket "src", Act.ensureBucket "dst"]) ++
      [Act.headObj "src" key, Act.headObj "dst" key]) = w
  have hlat : (envOfWorld w key).latencyMs = 0 := rfl
  rw [hlat]
  simp only [gt_iff_lt, lt_self_iff_false, if_false, List.nil_append]
  simp [applyActs, applyAct]

theorem runCopies_noop (key : String) (o o2 : Obj) :
    ∀ (n : Nat) (w : World), w.srcStore key = some o → w.dstStore key = some o2 →
      o2.body = o.body → runCopies w key n = List.replicate n (.ok .noop) := by
  intro n
  induction n with
  | zero => intro w _ _ _; rfl
  | succ k ih =>
    intro w hs hd hb
    have h1 := runCopy_noop w key o o2 hs hd hb
    simp only [runCopies, h1]
    rw [ih w hs hd hb]
    rfl

/-- C2: if both HEADs return present metadata with equal etag and size the
call returns `\x7bnoop\x7d` and issues no PUT; in the deterministic world a
first run over an empty destination returns `copied` and every subsequent run
returns `noop`, and over an already-identical destination every run returns
`noop` — so N ≥ 1 runs yield at most one `copied`. -/
theorem c2_idempotent :
    (∀ key src dst env smv dmv,
       env.encEnforced = false →
       env.ensureSrcResp = .ok () → env.ensureDstResp = .ok () →
       headMeta env.headSrcResp = .ok (some smv) →
       headMeta env.headDstResp = .ok (some dmv) →
       smv.etag = dmv.etag → smv.size = dmv.size →
       (copyOnce key src dst env).1 = .ok .noop ∧
       putCount (copyOnce key src dst env).2 = 0) ∧
    (∀ (w : World) (key : String) (o : Obj) (n : Nat),
       w.srcStore key = some o → w.dstStore key = none →
       o.body.length ≠ 0 → 5 ≤ w.now - o.lastModified →
       runCopies w key (n + 1) =
         .ok (.copied (o.body.length : Int) w.token) :: List.replicate n (.ok .noop)) ∧
    (∀ (w : World) (key : String) (o o2 : Obj) (n : Nat),
       w.srcStore key = some o → w.dstStore key = some o2 → o2.body = o.body →
       runCopies w key n = List.replicate n (.ok .noop)) := by
  refine ⟨?_, ?_, ?_⟩
  · intro key src dst env smv dmv henc hes hed hhs hhd he hsz
    have hg := copyOnceAux_guards key src dst env
      (growingCheck env.reHeadResp env.now) (some smv) (some dmv) henc hes hed hhs hhd
    unfold copyOnce
    rw [hg, if_pos (smdmEq_some_some he hsz)]
    refine ⟨rfl, ?_⟩
    by_cases hl : env.latencyMs > 0 <;>
      simp [putCount, hl, List.filter_append, List.filter]
  · intro w key o n hs hd hlen hfresh
    have h1 := runCopy_copied w key o hs hd hlen hfresh
    simp only [runCopies, h1]
    rw [runCopies_noop key o ⟨o.body, w.now⟩ n (wAfterPut w key o.body)
      (by simpa [wAfterPut] using hs) (by simp [wAfterPut]) rfl]
  · intro w key o o2 n hs hd hb
    exact runCopies_noop key o o2 n w hs hd hb

/-- C2 witness: matching metadata gives noop with no PUT; three runs over the
concrete world give one `copied` then `noop`s. -/
theorem c2_idempotent_witness :
    ((copyOnce "k" "s" "d" emptyMatchedEnv).1 = .ok .noop ∧
      putCount (copyOnce "k" "s" "d" emptyMatchedEnv).2 = 0) ∧
    runCopies w0 "a/b" 3 =
      .ok (.copied (("BODY".length : Int)) w0.token) :: List.replicate 2 (.ok .noop) :=
  ⟨c2_idempotent.1 "k" "s" "d" emptyMatchedEnv ⟨"E0", 0⟩ ⟨"E0", 0⟩
      rfl rfl rfl (by decide) (by decide) rfl rfl,
   c2_idempotent.2.1 w0 "a/b" ⟨"BODY", 0⟩ 2 (by decide) rfl (by decide) (by decide)⟩

end Migrator

namespace Migrator

/-! ### C10 -/

theorem copyLoop_no_skip (key src dst : String) (env : CopyEnv) (size : Int) :
    ∀ (l : List Nat) (b : Nat) (reason : String),
      (copyLoop key src dst env size l b).1 ≠ .ok (.skipped reason) := by
  intro l
  induction l with
  | nil => intro b r; simp [copyLoop]
  | cons a rest ih =>
    intro b r
    simp only [copyLoop]
    cases hga : env.getTry a with
    | error e =>
      simp only []
      by_cases ht : isClientThrottle e = true ∧ a < maxRetries
      · rw [if_pos ht]; exact ih (b * 2) r
      · rw [if_neg ht]; simp
    | ok body =>
      cases hpa : env.putTry a with
      | error e =>
        simp only []
        by_cases ht : isClientThrottle e = true ∧ a < maxRetries
        · rw [if_pos ht]; exact ih (b * 2) r
        · rw [if_neg ht]; simp
      | ok u => simp

theorem copyOnceAux_no_growing (key src dst : String) (env : CopyEnv) :
    (copyOnceAux key src dst env false).1 ≠ .ok (.skipped "file_growing") := by
  unfold copyOnceAux
  by_cases hgate : env.encEnforced = true ∧ env.dstEncrypted = false
  · rw [if_pos hgate]; simp
  · rw [if_neg hgate]
    cases env.ensureSrcResp with
    | error e => simp
    | ok u =>
      cases env.ensureDstResp with
      | error e => simp
      | ok u2 =>
        cases headMeta env.headSrcResp with
        | error e => simp
        | ok sm =>
          cases headMeta env.headDstResp with
          | error e => simp
          | ok dm =>
            simp only []
            by_cases heq : smdmEq sm dm = true
            · rw [if_pos heq]; simp
            · rw [if_neg heq]
              match sm, dm with
              | none, some d => simp
              | none, none => simp
              | some smv, dmx =>
                simp only []
                by_cases hz : smv.size = 0
                · rw [if_pos hz]
                  simp [Outcome.skipped.injEq]
                · rw [if_neg hz]
                  simp only [Bool.false_eq_true, if_false]
                  exact copyLoop_no_skip key src dst env smv.size
                    (List.range (maxRetries + 1)) 1 "file_growing"

/-- C10: if the growing-file re-HEAD raises any exception, `copy_once`
behaves exactly as if the probe had reported no `LastModified`: the error is
swallowed, the run proceeds to the retry loop, and the outcome is never
`\x7bskipped, file_growing\x7d`. -/
theorem c10_rehead_swallowed (key src dst : String) (env : CopyEnv) (e : PyErr)
    (h : env.reHeadResp = .error e) :
    copyOnce key src dst env =
      copyOnce key src dst { env with reHeadResp := .ok {} } ∧
    (copyOnce key src dst env).1 ≠ .ok (.skipped "file_growing") := by
  constructor
  · unfold copyOnce
    rw [h]
    rfl
  · unfold copyOnce
    rw [h]
    exact copyOnceAux_no_growing key src dst env

/-- C10 witness: a concrete failing re-HEAD is ignored and the copy proceeds. -/
theorem c10_rehead_swallowed_witness :
    (copyOnce "k" "s" "d"
        { emptyMatchedEnv with headDstResp := .error (.clientError (some "404")),
                               headSrcResp := .ok ⟨some "\"E1\"", some 9, some 0⟩,
                               reHeadResp := .error (.otherExn "boom") } =
      copyOnce "k" "s" "d"
        { emptyMatchedEnv with headDstResp := .error (.clientError (some "404")),
                               headSrcResp := .ok ⟨some "\"E1\"", some 9, some 0⟩,
                               reHeadResp := .ok {} }) ∧
    (copyOnce "k" "s" "d"
        { emptyMatchedEnv with headDstResp := .error (.clientError (some "404")),
                               headSrcResp := .ok ⟨some "\"E1\"", some 9, some 0⟩,
                               reHeadResp := .error (.otherExn "boom") }).1 ≠
      .ok (.skipped "file_growing") :=
  c10_rehead_swallowed "k" "s" "d"
    { emptyMatchedEnv with headDstResp := .error (.clientError (some "404")),
                           headSrcResp := .ok ⟨some "\"E1\"", some 9, some 0⟩,
                           reHeadResp := .error (.otherExn "boom") }
    (.otherExn "boom") rfl

end Migrator

namespace Migrator

/-! ### C6 -/

theorem lookup_eq_none_of_not_mem (k : String) :
    ∀ (l : List (String × Nat)), k ∉ l.map Prod.fst → List.lookup k l = none := by
  intro l
  induction l with
  | nil => intro _; rfl
  | cons p ps ih =>
    intro h
    simp only [List.map_cons, List.mem_cons] at h
    push_neg at h
    simp only [List.lookup]
    rw [show (k == p.1) = false from beq_eq_false_iff_ne.mpr h.1]
    exact ih h.2

theorem dlookup_append_of_none (a b : List (String × Nat)) (k : String)
    (h : dlookup a k = none) : dlookup (a ++ b) k = dlookup b k := by
  induction a with
  | nil => rfl
  | cons p ps ih =>
    simp only [dlookup] at h ⊢
    by_cases hk : p.1 = k
    · rw [if_pos hk] at h; exact absurd h (by simp)
    · rw [if_neg hk] at h ⊢
      exact ih h

theorem dlookup_append_of_some (a b : List (String × Nat)) (k : String) (v : Nat)
    (h : dlookup a k = some v) : dlookup (a ++ b) k = some v := by
  induction a with
  | nil => exact absurd h (by simp [dlookup])
  | cons p ps ih =>
    simp only [dlookup] at h ⊢
    by_cases hk : p.1 = k
    · rw [if_pos hk] at h ⊢; exact h
    · rw [if_neg hk] at h ⊢
      exact ih h

theorem any_false_dlookup_none (k : String) :
    ∀ (d : List (String × Nat)), d.any (fun p => decide (p.1 = k)) = false →
      dlookup d k = none := by
  intro d
  induction d with
  | nil => intro _; rfl
  | cons p ps ih =>
    intro h
    simp only [List.any_cons, Bool.or_eq_false_iff, decide_eq_false_iff_not] at h
    simp only [dlookup]
    rw [if_neg h.1]
    exact ih (by simpa using h.2)

theorem dlookup_map_set_self (k : String) (v : Nat) :
    ∀ (d : List (String × Nat)), d.any (fun p => decide (p.1 = k)) = true →
      dlookup (d.map (fun p => if p.1 = k then (k, v) else p)) k = some v := by
  intro d
  induction d with
  | nil => intro h; simp at h
  | cons p ps ih =>
    intro h
    simp only [List.map_cons]
    by_cases hk : p.1 = k
    · rw [if_pos hk]
      simp [dlookup]
    · rw [if_neg hk]
      simp only [dlookup]
      rw [if_neg hk]
      apply ih
      simp only [List.any_cons, Bool.or_eq_true] at h
      rcases h with h | h
      · exact absurd (of_decide_eq_true h) hk
      · exact h

theorem dlookup_dictSet_self (d : List (String × Nat)) (k : String) (v : Nat) :
    dlookup (dictSet d k v) k = some v := by
  unfold dictSet
  by_cases h : d.any (fun p => decide (p.1 = k)) = true
  · rw [if_pos h]
    exact dlookup_map_set_self k v d h
  · rw [if_neg h]
    rw [dlookup_append_of_none d _ k (any_false_dlookup_none k d (by
      rw [Bool.not_eq_true] at h; exact h))]
    simp [dlookup]

theorem dlookup_map_set_ne (k k2 : String) (v : Nat) (hne : k2 ≠ k) :
    ∀ (d : List (String × Nat)),
      dlookup (d.map (fun p => if p.1 = k then (k, v) else p)) k2 = dlookup d k2 := by
  intro d
  induction d with
  | nil => rfl
  | cons p ps ih =>
    simp only [List.map_cons]
    by_cases hk : p.1 = k
    · rw [if_pos hk]
      simp only [dlookup]
      rw [if_neg (fun hc => hne hc.symm), if_neg (by rw [hk]; exact fun hc => hne hc.symm)]
      exact ih
    · rw [if_neg hk]
      simp only [dlookup]
      by_cases h2 : p.1 = k2
      · rw [if_pos h2, if_pos h2]
      · rw [if_neg h2, if_neg h2]
        exact ih

theorem dlookup_dictSet_ne (d : List (String × Nat)) (k k2 : String) (v : Nat)
    (hne : k2 ≠ k) : dlookup (dictSet d k v) k2 = dlookup d k2 := by
  unfold dictSet
  by_cases h : d.any (fun p => decide (p.1 = k)) = true
  · rw [if_pos h]
    exact dlookup_map_set_ne k k2 v hne d
  · rw [if_neg h]
    by_cases h2 : dlookup d k2 = none
    · rw [dlookup_append_of_none d _ k2 h2, h2]
      simp only [dlookup]
      rw [if_neg (fun hc => hne hc.symm)]
    · rcases Option.ne_none_iff_exists'.mp h2 with ⟨v2, hv2⟩
      rw [dlookup_append_of_some d _ k2 v2 hv2, hv2]

theorem foldl_dictSet_lookup :
    ∀ (rows : List (String × Nat)), (rows.map Prod.fst).Nodup →
      ∀ (d : List (String × Nat)) (k : String) (z : Nat), dlookup d k = some z →
        dlookup (rows.foldl (fun d p => dictSet d p.1 p.2) d) k =
          some ((List.lookup k rows).getD z) := by
  intro rows
  induction rows with
  | nil => intro _ d k z h; simpa [List.lookup] using h
  | cons p rest ih =>
    intro hnd d k z h
    rcases p with ⟨p1, p2⟩
    simp only [List.map_cons, List.nodup_cons] at hnd
    simp only [List.foldl_cons]
    by_cases hk : k = p1
    · have h1 : dlookup (dictSet d p1 p2) k = some p2 := by
        rw [hk]; exact dlookup_dictSet_self d p1 p2
      rw [ih hnd.2 _ k p2 h1]
      have hnone : List.lookup k rest = none := by
        rw [hk]; exact lookup_eq_none_of_not_mem p1 rest hnd.1
      simp only [List.lookup]
      rw [hnone, show (k == p1) = true from beq_iff_eq.mpr hk]
      rfl
    · have h1 : dlookup (dictSet d p1 p2) k = some z :=
        (dlookup_dictSet_ne d p1 k p2 hk).trans h
      rw [ih hnd.2 _ k z h1]
      simp only [List.lookup]
      rw [show (k == p1) = false from beq_eq_false_iff_ne.mpr hk]

theorem dlookup_mem (k : String) (v : Nat) :
    ∀ (d : List (String × Nat)), dlookup d k = some v → (k, v) ∈ d := by
  intro d
  induction d with
  | nil => intro h; exact absurd h (by simp [dlookup])
  | cons p ps ih =>
    intro h
    rcases p with ⟨p1, p2⟩
    simp only [dlookup] at h
    by_cases hk : p1 = k
    · rw [if_pos hk] at h
      simp only [Option.some.injEq] at h
      subst hk
      subst h
      exact List.mem_cons_self _ _
    · rw [if_neg hk] at h
      exact List.mem_cons_of_mem _ (ih h)

theorem alertsOf_append (a b : List Act) : alertsOf (a ++ b) = alertsOf a ++ alertsOf b := by
  simp [alertsOf, List.filter_append]

theorem alertsOf_gauges (l : List (String × Nat)) :
    alertsOf (l.map fun p => Act.gaugeSet p.1 p.2) = [] := by
  induction l with
  | nil => rfl
  | cons p ps ih => simpa [alertsOf, List.filter] using ih

theorem claimNext_eligible (store : List Task) (t : Task) (h : claimNext store = some t) :
    eligible t = true := by
  unfold claimNext at h
  have main : ∀ (l : List Task) (acc : Option Task),
      (∀ x ∈ l, eligible x = true) → (∀ b, acc = some b → eligible b = true) →
      ∀ u, l.foldl
        (fun acc t => match acc with
          | none => some t
          | some b => if t.createdAt < b.createdAt then some t else some b) acc = some u →
        eligible u = true := by
    intro l
    induction l with
    | nil => intro acc _ hacc u hu; exact hacc u hu
    | cons x xs ih =>
      intro acc hl hacc u hu
      simp only [List.foldl_cons] at hu
      refine ih _ (fun y hy => hl y (List.mem_cons_of_mem _ hy)) ?_ u hu
      intro b hb
      cases acc with
      | none =>
        simp only [Option.some.injEq] at hb
        rw [← hb]
        exact hl x (List.mem_cons_self x xs)
      | some c =>
        simp only [] at hb
        by_cases hlt : x.createdAt < c.createdAt
        · rw [if_pos hlt] at hb
          simp only [Option.some.injEq] at hb
          rw [← hb]
          exact hl x (List.mem_cons_self x xs)
        · rw [if_neg hlt] at hb
          simp only [Option.some.injEq] at hb
          rw [← hb]
          exact hacc c rfl
  exact main (store.filter eligible) none
    (fun x hx => (List.mem_filter.mp hx).2) (fun b hb => by cases hb) t h

/-- C6: every `_update_queue_metrics` invocation sets the gauge for each of
the five statuses (zero-filled), and emits exactly the
`migration_backlog`/`warning` alert with message `"<n> migration tasks
queued"` and metadata `queued = n` iff `n > 20`; the processor invokes it on
idle ticks and after every processed task. -/
theorem c6_observer :
    (∀ rows : List (String × Nat), (rows.map Prod.fst).Nodup →
       (∀ s ∈ queueStatuses,
          Act.gaugeSet s ((List.lookup s rows).getD 0) ∈ updateQueueMetrics rows) ∧
       alertsOf (updateQueueMetrics rows) =
         (if 20 < (List.lookup "queued" rows).getD 0 then
            [Act.alert "migration_backlog" "warning"
              (toString ((List.lookup "queued" rows).getD 0) ++ " migration tasks queued")
              ((List.lookup "queued" rows).getD 0)]
          else [])) ∧
    (∀ store env dresp, claimNext store = none →
       processQueueOnce store env dresp =
         (store, false, updateQueueMetrics (groupRows store))) ∧
    (∀ store env dresp t, claimNext store = some t →
       ∃ pre store2, (processQueueOnce store env dresp).2.2 =
         pre ++ updateQueueMetrics (groupRows store2)) := by
  refine ⟨?_, ?_, ?_⟩
  · intro rows hnd
    have hcounts : ∀ s, s ∈ queueStatuses →
        dlookup (rows.foldl (fun d p => dictSet d p.1 p.2) initCounts) s =
          some ((List.lookup s rows).getD 0) := by
      intro s hs
      apply foldl_dictSet_lookup rows hnd initCounts s 0
      fin_cases hs <;> rfl
    constructor
    · intro s hs
      have hmem := dlookup_mem s ((List.lookup s rows).getD 0) _ (hcounts s hs)
      unfold updateQueueMetrics
      refine List.mem_append_left _ ?_
      exact List.mem_map.mpr ⟨(s, (List.lookup s rows).getD 0), hmem, rfl⟩
    · unfold updateQueueMetrics
      have hq : (dlookup (rows.foldl (fun d p => dictSet d p.1 p.2) initCounts)
          "queued").getD 0 = (List.lookup "queued" rows).getD 0 := by
        rw [hcounts "queued" (by decide)]
        rfl
      simp only []
      rw [hq, alertsOf_append, alertsOf_gauges, List.nil_append]
      by_cases h20 : 20 < (List.lookup "queued" rows).getD 0
      · rw [if_pos h20]
        rfl
      · rw [if_neg h20]
        rfl
  · intro store env dresp h
    unfold processQueueOnce
    rw [h]
  · intro store env dresp t h
    have helig := claimNext_eligible store t h
    simp only [eligible, decide_eq_true_eq] at helig
    unfold processQueueOnce
    rw [h]
    simp only []
    rcases helig with h1 | h2 | h3
    · rw [if_pos (Or.inl h1)]
      exact ⟨(copyOnce t.key t.src t.dst env).2 ++
        (processCopy t (copyOnce t.key t.src t.dst env).1).2,
        applyStore store t (processCopy t (copyOnce t.key t.src t.dst env).1).1, rfl⟩
    · rw [if_neg (by rw [h2]; decide), if_pos h2]
      exact ⟨(cleanupOnce t.key t.src dresp).2 ++
        (processCleanup t (cleanupOnce t.key t.src dresp).1).2,
        applyStore store t (processCleanup t (cleanupOnce t.key t.src dresp).1).1, rfl⟩
    · rw [if_pos (Or.inr h3)]
      exact ⟨(copyOnce t.key t.src t.dst env).2 ++
        (processCopy t (copyOnce t.key t.src t.dst env).1).2,
        applyStore store t (processCopy t (copyOnce t.key t.src t.dst env).1).1, rfl⟩

/-- C6 witness: 21 queued rows fire the alert; 5 queued rows do not; the
idle tick calls the observer. -/
theorem c6_observer_witness :
    (Act.gaugeSet "queued" 21 ∈ updateQueueMetrics [("queued", 21)] ∧
      alertsOf (updateQueueMetrics [("queued", 21)]) =
        [Act.alert "migration_backlog" "warning" "21 migration tasks queued" 21]) ∧
    alertsOf (updateQueueMetrics [("queued", 5)]) = [] ∧
    processQueueOnce [] (throttledEnv "x") (.ok ()) =
      ([], false, updateQueueMetrics (groupRows [])) := by
  refine ⟨⟨?_, ?_⟩, ?_, ?_⟩
  · exact ((c6_observer.1 [("queued", 21)] (by decide)).1 "queued" (by decide))
  · have h := (c6_observer.1 [("queued", 21)] (by decide)).2
    simpa using h
  · have h := (c6_observer.1 [("queued", 5)] (by decide)).2
    simpa using h
  · exact c6_observer.2.1 [] (throttledEnv "x") (.ok ()) rfl

end Migrator

namespace Chaos

/-! ### C9 -/

theorem mem_sortedInsert (x a : String) :
    ∀ (l : List String), a ∈ sortedInsert x l ↔ a = x ∨ a ∈ l := by
  intro l
  induction l with
  | nil => simp [sortedInsert]
  | cons y ys ih =>
    simp only [sortedInsert]
    by_cases h1 : x < y
    · rw [if_pos h1]
      simp [List.mem_cons]
    · rw [if_neg h1]
      by_cases h2 : x = y
      · rw [if_pos h2]
        subst h2
        simp only [List.mem_cons]
        tauto
      · rw [if_neg h2]
        simp only [List.mem_cons, ih]
        tauto

theorem sorted_sortedInsert (x : String) :
    ∀ (l : List String), l.Pairwise (· < ·) → (sortedInsert x l).Pairwise (· < ·) := by
  intro l
  induction l with
  | nil => intro _; simp [sortedInsert]
  | cons y ys ih =>
    intro hp
    rw [List.pairwise_cons] at hp
    obtain ⟨hy, hys⟩ := hp
    simp only [sortedInsert]
    by_cases h1 : x < y
    · rw [if_pos h1]
      refine List.Pairwise.cons ?_ (List.Pairwise.cons hy hys)
      intro b hb
      rcases List.mem_cons.mp hb with rfl | hb2
      · exact h1
      · exact lt_trans h1 (hy b hb2)
    · rw [if_neg h1]
      by_cases h2 : x = y
      · rw [if_pos h2]
        exact List.Pairwise.cons hy hys
      · rw [if_neg h2]
        have hyx : y < x := by
          rcases lt_trichotomy x y with h | h | h
          · exact absurd h h1
          · exact absurd h h2
          · exact h
        refine List.Pairwise.cons ?_ (ih hys)
        intro b hb
        rcases (mem_sortedInsert x b ys).mp hb with rfl | hb2
        · exact hyx
        · exact hy b hb2

theorem pySortedSet_sorted (l : List String) : (pySortedSet l).Pairwise (· < ·) := by
  induction l with
  | nil => simp [pySortedSet]
  | cons a as ih => exact sorted_sortedInsert a (pySortedSet as) ih

theorem mem_pySortedSet (a : String) : ∀ (l : List String), a ∈ pySortedSet l ↔ a ∈ l := by
  intro l
  induction l with
  | nil => simp [pySortedSet]
  | cons b bs ih =>
    rw [show pySortedSet (b :: bs) = sortedInsert b (pySortedSet bs) from rfl,
      mem_sortedInsert, ih, List.mem_cons]

theorem getSetting_setSetting_self (st : Settings) (k v : String) :
    getSetting (setSetting st k v) k = some v := by
  simp [getSetting, setSetting, List.lookup]

/-- C9: `fail_endpoint` returns the sorted duplicate-free list whose members
are exactly the previous set plus the name and persists its comma-join;
`recover_endpoint` returns the sorted list without the name and persists its
comma-join; `get_latency` is 0 when unset; `set_latency` echoes its argument. -/
theorem c9_chaos_settings :
    (∀ (st : Settings) (name a : String),
       (failEndpoint st name).2.Pairwise (· < ·) ∧
       (a ∈ (failEndpoint st name).2 ↔ (a = name ∨ a ∈ getFailedEndpoints st)) ∧
       getSetting (failEndpoint st name).1 FAIL_KEY =
         some (String.intercalate "," (failEndpoint st name).2)) ∧
    (∀ (st : Settings) (name a : String),
       name ∉ (recoverEndpoint st name).2 ∧
       (recoverEndpoint st name).2.Pairwise (· < ·) ∧
       (a ∈ (recoverEndpoint st name).2 ↔
         (a ∈ getFailedEndpoints st ∧ a ≠ name)) ∧
       getSetting (recoverEndpoint st name).1 FAIL_KEY =
         some (String.intercalate "," (recoverEndpoint st name).2)) ∧
    (∀ st : Settings, getSetting st LATENCY_KEY = none → getLatency st = 0) ∧
    (∀ (st : Settings) (ms : Int), (setLatency st ms).2 = ms) := by
  refine ⟨?_, ?_, ?_, fun st ms => rfl⟩
  · intro st name a
    refine ⟨pySortedSet_sorted _, ?_, getSetting_setSetting_self st _ _⟩
    rw [show (failEndpoint st name).2 = pySortedSet (name :: getFailedEndpoints st) from rfl,
      mem_pySortedSet, List.mem_cons]
  · intro st name a
    refine ⟨?_, pySortedSet_sorted _, ?_, getSetting_setSetting_self st _ _⟩
    · intro hmem
      rw [show (recoverEndpoint st name).2 =
          pySortedSet ((getFailedEndpoints st).filter (fun a => a ≠ name)) from rfl,
        mem_pySortedSet, List.mem_filter] at hmem
      simp at hmem
    · rw [show (recoverEndpoint st name).2 =
          pySortedSet ((getFailedEndpoints st).filter (fun a => a ≠ name)) from rfl,
        mem_pySortedSet, List.mem_filter]
      simp
  · intro st h
    simp [getLatency, getInt, h]

/-- C9 witness: concrete settings store round-trip. -/
theorem c9_chaos_settings_witness :
    ((failEndpoint demoSettings "s3").2.Pairwise (· < ·) ∧
      ("s1" ∈ (failEndpoint demoSettings "s3").2 ↔
        ("s1" = "s3" ∨ "s1" ∈ getFailedEndpoints demoSettings)) ∧
      getSetting (failEndpoint demoSettings "s3").1 FAIL_KEY =
        some (String.intercalate "," (failEndpoint demoSettings "s3").2)) ∧
    ("s1" ∉ (recoverEndpoint demoSettings "s1").2 ∧
      (recoverEndpoint demoSettings "s1").2.Pairwise (· < ·) ∧
      ("s2" ∈ (recoverEndpoint demoSettings "s1").2 ↔
        ("s2" ∈ getFailedEndpoints demoSettings ∧ "s2" ≠ "s1")) ∧
      getSetting (recoverEndpoint demoSettings "s1").1 FAIL_KEY =
        some (String.intercalate "," (recoverEndpoint demoSettings "s1").2)) ∧
    getLatency [] = 0 ∧
    (setLatency [] 250).2 = 250 :=
  ⟨c9_chaos_settings.1 demoSettings "s3" "s1",
   c9_chaos_settings.2.1 demoSettings "s1" "s2",
   c9_chaos_settings.2.2.1 [] rfl,
   c9_chaos_settings.2.2.2 [] 250⟩

end Chaos
